import Mathlib

/-!
Shallow embedding of `src/stensil.py.py`: a PCB-identifier log processor.
Text is modelled as `List Char`; Python sets are modelled as duplicate-free
lists kept in insertion order; file-system effects are explicit state fields.
`\d`, `isdigit()` and whitespace are modelled over ASCII, which covers the
device-log character repertoire the program handles.
-/

namespace Stensil

/-- Text (Python `str`) as a list of characters. -/
abbrev Str := List Char

/-- Python `str.strip()`: remove leading and trailing whitespace. -/
def pyStrip (s : Str) : Str :=
  ((s.dropWhile Char.isWhitespace).reverse.dropWhile Char.isWhitespace).reverse

/-- Python `s.isdigit()`: nonempty and every character a decimal digit. -/
def pyIsDigit (s : Str) : Bool := !s.isEmpty && s.all Char.isDigit

/-- Splitting text into lines (file iteration / `splitlines`, modulo the trailing
newline that `strip()` removes anyway): split on newline; a trailing newline
produces no final empty line. -/
def splitlinesGo : Str → Str → List Str
  | [], acc => if acc.isEmpty then [] else [acc]
  | c :: cs, acc => if c = '\n' then acc :: splitlinesGo cs [] else splitlinesGo cs (acc ++ [c])

/-- Python `content.splitlines()`. -/
def splitlines (s : Str) : List Str := splitlinesGo s []

/-- Adding one element to a Python set, modelled as a duplicate-free list in
insertion order. -/
def insertNew (l : List Str) (x : Str) : List Str := if x ∈ l then l else l ++ [x]

/-- Python `set.update(xs)` (src/stensil.py.py:150). -/
def setUpdate (l : List Str) (xs : List Str) : List Str := xs.foldl insertNew l

/-- load_total_pcb_ids (src/stensil.py.py:38-47): read the store artifact when
present, keep each stripped line that is purely decimal digits, as a set; an
absent or unreadable artifact (`none`) yields the empty set. -/
def load_total_pcb_ids (file : Option Str) : List Str :=
  match file with
  | none => []
  | some content => setUpdate [] (((splitlines content).map pyStrip).filter pyIsDigit)

/-- Python `int(s)` on a string of decimal digits. -/
def strToNat (s : Str) : Nat := s.foldl (fun n c => n * 10 + (c.toNat - 48)) 0

/-- Python `sorted(s, key=int)` (src/stensil.py.py:53): stable sort by numeric
value of the identifier. -/
def sortByInt (l : List Str) : List Str :=
  l.mergeSort (fun a b => decide (strToNat a ≤ strToNat b))

/-- Case-insensitive match of the literal token "PCB" at the head of the text
(the token part of both regexes under `re.IGNORECASE`). -/
def pcbTokenAt : Str → Bool
  | p :: c :: b :: _ => p.toLower == 'p' && c.toLower == 'c' && b.toLower == 'b'
  | _ => false

/-- Index of the first decimal digit of a string, if any. -/
def firstDigit? : Str → Option Nat
  | [] => none
  | c :: cs => if c.isDigit then some 0 else (firstDigit? cs).map (· + 1)

/-- Index of the last decimal digit of a string, if any. -/
def lastDigit? : Str → Option Nat
  | [] => none
  | c :: cs =>
      match lastDigit? cs with
      | some i => some (i + 1)
      | none => if c.isDigit then some 0 else none

/-- One attempt of the primary pattern `PCB.*(\d+)` (src/stensil.py.py:29, greedy
gap, `re.IGNORECASE`) at the start of `s`: `.` stops at a newline, the greedy
`.*` backtracks from the right until `(\d+)` can start, i.e. to the last digit
before the newline, and there `(\d+)` can take that one digit only. Returns
group 1 and the text after the match. -/
def primMatch (s : Str) : Option (Str × Str) :=
  if pcbTokenAt s then
    match lastDigit? ((s.drop 3).takeWhile (fun c => !(c == '\n'))) with
    | some i =>
        some (((((s.drop 3).takeWhile (fun c => !(c == '\n'))).drop i).take 1),
              s.drop (3 + i + 1))
    | none => none
  else none

/-- One attempt of the fallback pattern `[Pp][Cc][Bb].*?(\d+)`
(src/stensil.py.py:30, lazy gap) at the start of `s`: the lazy `.*?` stops at
the first digit after the token on the same line and `(\d+)` greedily captures
that whole digit run. -/
def fbMatch (s : Str) : Option (Str × Str) :=
  if pcbTokenAt s then
    match firstDigit? ((s.drop 3).takeWhile (fun c => !(c == '\n'))) with
    | some i =>
        some (((((s.drop 3).takeWhile (fun c => !(c == '\n'))).drop i).takeWhile Char.isDigit),
              s.drop (3 + i +
                ((((s.drop 3).takeWhile (fun c => !(c == '\n'))).drop i).takeWhile
                  Char.isDigit).length))
    | none => none
  else none

/-- `re.findall` scan: left to right, at each position attempt a match; on
success emit group 1 and resume after the matched span. Fuel bounds the scan;
the initial fuel `s.length` suffices because every match consumes at least one
character. -/
def findallGo (step : Str → Option (Str × Str)) : Nat → Str → List Str
  | 0, _ => []
  | _ + 1, [] => []
  | fuel + 1, c :: cs =>
      match step (c :: cs) with
      | some (cap, rest) => cap :: findallGo step fuel rest
      | none => findallGo step fuel cs

/-- `re.findall(PCB_ID_PATTERN, content, re.IGNORECASE)` (src/stensil.py.py:125). -/
def findallPrimary (content : Str) : List Str := findallGo primMatch content.length content

/-- `re.findall(FALLBACK_PATTERN, content, re.IGNORECASE)` (src/stensil.py.py:128). -/
def findallFallback (content : Str) : List Str := findallGo fbMatch content.length content

/-- Identifier extraction (src/stensil.py.py:125-128): the primary pattern, then
the fallback only when the primary found nothing. -/
def extract (content : Str) : List Str :=
  if (findallPrimary content).isEmpty then findallFallback content else findallPrimary content

/-- Python `str.lower()` (ASCII letters). -/
def toLowerStr (s : Str) : Str := s.map Char.toLower

/-- Whether `needle` occurs at the head of the second argument. -/
def startsWithStr : Str → Str → Bool
  | [], _ => true
  | _ :: _, [] => false
  | a :: as, b :: bs => a == b && startsWithStr as bs

/-- Python substring test `needle in hay`. -/
def hasSub (needle hay : Str) : Bool :=
  match hay with
  | [] => needle.isEmpty
  | c :: t => startsWithStr needle (c :: t) || hasSub needle t

/-- The line filter of src/stensil.py.py:130:
`"PCB" in line.lower() or "pcb" in line`. -/
def pcbLineTest (line : Str) : Bool :=
  hasSub ['P', 'C', 'B'] (toLowerStr line) || hasSub ['p', 'c', 'b'] line

/-- `pcb_lines` (src/stensil.py.py:130): the stripped lines passing the filter. -/
def pcb_lines_of (content : Str) : List Str :=
  ((splitlines content).filter pcbLineTest).map pyStrip

/-- Content of the count artifact: Python `f"{n}\n"`. -/
def countRepr (n : Nat) : Str := (Nat.repr n).toList ++ ['\n']

/-- Observable state of the processor: the in-memory set, the recorded date, and
the contents of the artifact files, plus write counters making each rewrite of
the count and store artifacts observable. -/
structure SysState where
  totalPcbIds : List Str
  currentDate : Nat
  countFile : Option Str
  storeFile : Option (List Str)
  diagFile : Option (Nat × Nat × List Str)
  backupFile : Option Str
  countWrites : Nat
  storeWrites : Nat
  deriving DecidableEq

/-- Inputs of one pass: the date of the invocation, the decoded source text
(`none` when the source file is missing), and success flags for the fallible
I/O sub-steps (copy, the body of the outer try, the text-mode read loop, the
binary-mode fallback read). -/
structure Env where
  date : Nat
  source : Option Str
  copyOk : Bool
  procOk : Bool
  readOk : Bool
  binOk : Bool
  deriving DecidableEq

/-- update_count_file (src/stensil.py.py:167-175): rewrite the count artifact
with the current cardinality of the set. -/
def update_count_file (s : SysState) : SysState :=
  { s with countFile := some (countRepr s.totalPcbIds.length),
           countWrites := s.countWrites + 1 }

/-- save_total_pcb_ids (src/stensil.py.py:49-57): rewrite the store artifact,
one identifier per line, sorted numerically ascending. -/
def save_total_pcb_ids (s : SysState) : SysState :=
  { s with storeFile := some (sortByInt s.totalPcbIds),
           storeWrites := s.storeWrites + 1 }

/-- Day-boundary check (src/stensil.py.py:66-70): on a date change record the new
date and refresh the count artifact; the identifier set is untouched. -/
def dayStep (e : Env) (s : SysState) : SysState :=
  if e.date ≠ s.currentDate then update_count_file { s with currentDate := e.date } else s

/-- Diagnostic write (src/stensil.py.py:133-139): timestamp, count of
pcb-related lines, and the lines themselves. -/
def diagStep (d : Nat) (content : Str) (s : SysState) : SysState :=
  { s with diagFile := some (d, (pcb_lines_of content).length, pcb_lines_of content) }

/-- Merge and conditional store write (src/stensil.py.py:149-154): union the
extracted identifiers into the set and rewrite the store artifact only when the
set grew strictly. -/
def mergeStep (content : Str) (s : SysState) : SysState :=
  if s.totalPcbIds.length < (setUpdate s.totalPcbIds (extract content)).length then
    save_total_pcb_ids { s with totalPcbIds := setUpdate s.totalPcbIds (extract content) }
  else { s with totalPcbIds := setUpdate s.totalPcbIds (extract content) }

/-- Body after a successful copy (src/stensil.py.py:85-165): emptiness check,
decode, extraction, diagnostics, merge, count refresh. `procOk = false` models
an unexpected exception caught by the outer handler (line 163), which still
refreshes the count artifact. -/
def afterCopy (e : Env) (content : Str) (s : SysState) : SysState :=
  if !e.procOk then update_count_file s
  else if content.isEmpty then update_count_file s
  else if !e.readOk && !e.binOk then update_count_file s
  else update_count_file (mergeStep content (diagStep e.date content s))

/-- process_log_file (src/stensil.py.py:64-165): one processing pass, a total
function of the environment and the previous state (no exception escapes). -/
def process_log_file (e : Env) (s0 : SysState) : SysState :=
  match e.source with
  | none => update_count_file (dayStep e s0)
  | some content =>
      if !e.copyOk then update_count_file (dayStep e s0)
      else afterCopy e content { dayStep e s0 with backupFile := some content }

/-- A sequence of passes driven by the trigger. -/
def processSeq (envs : List Env) (s : SysState) : SysState :=
  envs.foldl (fun st e => process_log_file e st) s

/-- Fresh state of the handler before any pass (empty store artifact). -/
def initState (d : Nat) : SysState :=
  { totalPcbIds := [], currentDate := d, countFile := none, storeFile := none,
    diagFile := none, backupFile := none, countWrites := 0, storeWrites := 0 }

/-- A pass in which every I/O sub-step succeeds and the source decodes to
`content`. -/
def okEnv (d : Nat) (content : Str) : Env :=
  { date := d, source := some content, copyOk := true, procOk := true,
    readOk := true, binOk := true }

/-- The identifiers the post-copy body contributes to the set: empty on each
early-return path, the extraction result otherwise. -/
def bodyIds (e : Env) (content : Str) : List Str :=
  if !e.procOk then []
  else if content.isEmpty then []
  else if !e.readOk && !e.binOk then []
  else extract content

/-- The identifiers a whole pass contributes to the set. -/
def extractedOf (e : Env) : List Str :=
  match e.source with
  | none => []
  | some content => if !e.copyOk then [] else bodyIds e content

theorem mem_insertNew_of_mem {l : List Str} {x y : Str} (h : y ∈ l) : y ∈ insertNew l x := by
  unfold insertNew
  split
  · exact h
  · exact List.mem_append_left _ h

theorem mem_insertNew_self {l : List Str} (x : Str) : x ∈ insertNew l x := by
  unfold insertNew
  split
  · assumption
  · exact List.mem_append_right _ (List.mem_singleton_self x)

theorem insertNew_eq_of_mem {l : List Str} {x : Str} (h : x ∈ l) : insertNew l x = l := by
  unfold insertNew
  simp [h]

theorem length_le_insertNew (l : List Str) (x : Str) : l.length ≤ (insertNew l x).length := by
  unfold insertNew
  split
  · exact le_refl _
  · simp

theorem mem_setUpdate_of_mem {l : List Str} {xs : List Str} {y : Str} (h : y ∈ l) :
    y ∈ setUpdate l xs := by
  induction xs generalizing l with
  | nil => exact h
  | cons a as ih => exact ih (mem_insertNew_of_mem h)

theorem mem_setUpdate_of_mem_arg {l : List Str} {xs : List Str} {y : Str} (h : y ∈ xs) :
    y ∈ setUpdate l xs := by
  induction xs generalizing l with
  | nil => cases h
  | cons a as ih =>
      rcases List.mem_cons.mp h with h1 | h2
      · subst h1
        show y ∈ setUpdate (insertNew l y) as
        exact mem_setUpdate_of_mem (mem_insertNew_self _)
      · exact ih h2

theorem length_le_setUpdate (l : List Str) (xs : List Str) :
    l.length ≤ (setUpdate l xs).length := by
  induction xs generalizing l with
  | nil => exact le_refl _
  | cons a as ih => exact le_trans (length_le_insertNew l a) (ih (insertNew l a))

theorem setUpdate_eq_of_subset {l : List Str} {xs : List Str} (h : ∀ x ∈ xs, x ∈ l) :
    setUpdate l xs = l := by
  induction xs generalizing l with
  | nil => rfl
  | cons a as ih =>
      have ha : a ∈ l := h a (List.mem_cons_self a as)
      show setUpdate (insertNew l a) as = l
      rw [insertNew_eq_of_mem ha]
      exact ih fun x hx => h x (List.mem_cons_of_mem a hx)

theorem mem_setUpdate_iff {l : List Str} {xs : List Str} {y : Str} :
    y ∈ setUpdate l xs ↔ y ∈ l ∨ y ∈ xs := by
  constructor
  · intro h
    induction xs generalizing l with
    | nil => exact Or.inl h
    | cons a as ih =>
        rcases ih (l := insertNew l a) h with h1 | h2
        · unfold insertNew at h1
          split at h1
          · exact Or.inl h1
          · rcases List.mem_append.mp h1 with h3 | h4
            · exact Or.inl h3
            · exact Or.inr (List.mem_cons.mpr (Or.inl (List.mem_singleton.mp h4)))
        · exact Or.inr (List.mem_cons_of_mem a h2)
  · intro h
    rcases h with h | h
    · exact mem_setUpdate_of_mem h
    · exact mem_setUpdate_of_mem_arg h

theorem nodup_insertNew {l : List Str} (h : l.Nodup) (x : Str) : (insertNew l x).Nodup := by
  unfold insertNew
  split
  · exact h
  · next hx => simp [List.nodup_append, h, hx]

theorem nodup_setUpdate {l : List Str} (h : l.Nodup) (xs : List Str) :
    (setUpdate l xs).Nodup := by
  induction xs generalizing l with
  | nil => exact h
  | cons a as ih => exact ih (nodup_insertNew h a)

@[simp] theorem setUpdate_nil (l : List Str) : setUpdate l [] = l := rfl

@[simp] theorem ucf_total (s : SysState) :
    (update_count_file s).totalPcbIds = s.totalPcbIds := rfl

@[simp] theorem ucf_currentDate (s : SysState) :
    (update_count_file s).currentDate = s.currentDate := rfl

@[simp] theorem ucf_countFile (s : SysState) :
    (update_count_file s).countFile = some (countRepr s.totalPcbIds.length) := rfl

@[simp] theorem ucf_storeFile (s : SysState) :
    (update_count_file s).storeFile = s.storeFile := rfl

@[simp] theorem ucf_storeWrites (s : SysState) :
    (update_count_file s).storeWrites = s.storeWrites := rfl

@[simp] theorem ucf_countWrites (s : SysState) :
    (update_count_file s).countWrites = s.countWrites + 1 := rfl

@[simp] theorem save_total (s : SysState) :
    (save_total_pcb_ids s).totalPcbIds = s.totalPcbIds := rfl

@[simp] theorem save_currentDate (s : SysState) :
    (save_total_pcb_ids s).currentDate = s.currentDate := rfl

@[simp] theorem save_countFile (s : SysState) :
    (save_total_pcb_ids s).countFile = s.countFile := rfl

@[simp] theorem save_countWrites (s : SysState) :
    (save_total_pcb_ids s).countWrites = s.countWrites := rfl

@[simp] theorem save_storeFile (s : SysState) :
    (save_total_pcb_ids s).storeFile = some (sortByInt s.totalPcbIds) := rfl

@[simp] theorem save_storeWrites (s : SysState) :
    (save_total_pcb_ids s).storeWrites = s.storeWrites + 1 := rfl

@[simp] theorem diag_total (d : Nat) (c : Str) (s : SysState) :
    (diagStep d c s).totalPcbIds = s.totalPcbIds := rfl

@[simp] theorem diag_currentDate (d : Nat) (c : Str) (s : SysState) :
    (diagStep d c s).currentDate = s.currentDate := rfl

@[simp] theorem diag_countFile (d : Nat) (c : Str) (s : SysState) :
    (diagStep d c s).countFile = s.countFile := rfl

@[simp] theorem diag_countWrites (d : Nat) (c : Str) (s : SysState) :
    (diagStep d c s).countWrites = s.countWrites := rfl

@[simp] theorem diag_storeFile (d : Nat) (c : Str) (s : SysState) :
    (diagStep d c s).storeFile = s.storeFile := rfl

@[simp] theorem diag_storeWrites (d : Nat) (c : Str) (s : SysState) :
    (diagStep d c s).storeWrites = s.storeWrites := rfl

@[simp] theorem dayStep_total (e : Env) (s : SysState) :
    (dayStep e s).totalPcbIds = s.totalPcbIds := by
  unfold dayStep
  split <;> rfl

@[simp] theorem dayStep_storeFile (e : Env) (s : SysState) :
    (dayStep e s).storeFile = s.storeFile := by
  unfold dayStep
  split <;> rfl

@[simp] theorem dayStep_storeWrites (e : Env) (s : SysState) :
    (dayStep e s).storeWrites = s.storeWrites := by
  unfold dayStep
  split <;> rfl

@[simp] theorem dayStep_currentDate (e : Env) (s : SysState) :
    (dayStep e s).currentDate = e.date := by
  unfold dayStep
  split
  · rfl
  · next h => exact (not_ne_iff.mp h).symm

theorem dayStep_countWrites_le (e : Env) (s : SysState) :
    s.countWrites ≤ (dayStep e s).countWrites := by
  unfold dayStep
  split <;> simp

theorem dayStep_eq_self {e : Env} {s : SysState} (h : e.date = s.currentDate) :
    dayStep e s = s := by
  unfold dayStep
  simp [h]

@[simp] theorem mergeStep_total (c : Str) (s : SysState) :
    (mergeStep c s).totalPcbIds = setUpdate s.totalPcbIds (extract c) := by
  unfold mergeStep
  split <;> rfl

@[simp] theorem mergeStep_currentDate (c : Str) (s : SysState) :
    (mergeStep c s).currentDate = s.currentDate := by
  unfold mergeStep
  split <;> rfl

@[simp] theorem mergeStep_countFile (c : Str) (s : SysState) :
    (mergeStep c s).countFile = s.countFile := by
  unfold mergeStep
  split <;> rfl

@[simp] theorem mergeStep_countWrites (c : Str) (s : SysState) :
    (mergeStep c s).countWrites = s.countWrites := by
  unfold mergeStep
  split <;> rfl

theorem mergeStep_eq_of_subset {c : Str} {s : SysState}
    (h : ∀ x ∈ extract c, x ∈ s.totalPcbIds) : mergeStep c s = s := by
  unfold mergeStep
  rw [setUpdate_eq_of_subset h]
  simp

theorem afterCopy_total (e : Env) (c : Str) (s : SysState) :
    (afterCopy e c s).totalPcbIds = setUpdate s.totalPcbIds (bodyIds e c) := by
  unfold afterCopy bodyIds
  split_ifs <;> simp

theorem afterCopy_currentDate (e : Env) (c : Str) (s : SysState) :
    (afterCopy e c s).currentDate = s.currentDate := by
  unfold afterCopy
  split_ifs <;> simp

theorem ucf_countFile_reflects (t : SysState) :
    (update_count_file t).countFile =
      some (countRepr (update_count_file t).totalPcbIds.length) := rfl

theorem afterCopy_countFile (e : Env) (c : Str) (s : SysState) :
    (afterCopy e c s).countFile =
      some (countRepr (afterCopy e c s).totalPcbIds.length) := by
  unfold afterCopy
  split_ifs <;> exact ucf_countFile_reflects _

theorem afterCopy_countWrites (e : Env) (c : Str) (s : SysState) :
    (afterCopy e c s).countWrites = s.countWrites + 1 := by
  unfold afterCopy
  split_ifs <;> simp

theorem afterCopy_store_of_subset (e : Env) (c : Str) (s : SysState)
    (h : ∀ x ∈ bodyIds e c, x ∈ s.totalPcbIds) :
    (afterCopy e c s).storeFile = s.storeFile ∧
    (afterCopy e c s).storeWrites = s.storeWrites := by
  unfold afterCopy
  unfold bodyIds at h
  split_ifs with h1 h2 h3
  · simp
  · simp
  · simp
  · simp only [h1, h2, h3, if_false, if_neg] at h
    have hmerge : mergeStep c (diagStep e.date c s) = diagStep e.date c s :=
      mergeStep_eq_of_subset (by simpa using h)
    rw [hmerge]
    simp

theorem process_total (e : Env) (s : SysState) :
    (process_log_file e s).totalPcbIds = setUpdate s.totalPcbIds (extractedOf e) := by
  unfold process_log_file extractedOf
  cases e.source with
  | none => simp
  | some c =>
      by_cases hco : e.copyOk
      · simp [hco, afterCopy_total]
      · simp [hco]

theorem process_currentDate (e : Env) (s : SysState) :
    (process_log_file e s).currentDate = e.date := by
  unfold process_log_file
  cases e.source with
  | none => simp
  | some c =>
      by_cases hco : e.copyOk
      · simp [hco, afterCopy_currentDate]
      · simp [hco]

theorem process_countFile (e : Env) (s : SysState) :
    (process_log_file e s).countFile =
      some (countRepr (process_log_file e s).totalPcbIds.length) := by
  unfold process_log_file
  cases e.source with
  | none => exact ucf_countFile_reflects _
  | some c =>
      by_cases hco : e.copyOk
      · simp only [hco, Bool.not_true, if_false, Bool.false_eq_true]
        exact afterCopy_countFile _ _ _
      · simp only [hco, Bool.not_false, if_true]
        exact ucf_countFile_reflects _

theorem process_countWrites (e : Env) (s : SysState) :
    (process_log_file e s).countWrites = (dayStep e s).countWrites + 1 := by
  unfold process_log_file
  cases e.source with
  | none => simp
  | some c =>
      by_cases hco : e.copyOk
      · simp [hco, afterCopy_countWrites]
      · simp [hco]

theorem process_store_of_subset (e : Env) (s : SysState)
    (h : ∀ x ∈ extractedOf e, x ∈ s.totalPcbIds) :
    (process_log_file e s).storeFile = s.storeFile ∧
    (process_log_file e s).storeWrites = s.storeWrites := by
  unfold process_log_file
  unfold extractedOf at h
  revert h
  cases e.source with
  | none => intro h; simp
  | some c =>
      intro h
      by_cases hco : e.copyOk
      · simp only [hco, Bool.not_true, if_false, Bool.false_eq_true] at h ⊢
        have hres := afterCopy_store_of_subset e c
          { dayStep e s with backupFile := some c } (by simpa using h)
        simpa using hres
      · simp [hco]

theorem digitNone_iff (l : Str) : lastDigit? l = none ↔ firstDigit? l = none := by
  induction l with
  | nil => simp [lastDigit?, firstDigit?]
  | cons c cs ih =>
      unfold lastDigit? firstDigit?
      cases hl : lastDigit? cs with
      | some i =>
          have hf : firstDigit? cs ≠ none := fun hn => by
            rw [ih.mpr hn] at hl
            cases hl
          by_cases hc : c.isDigit <;> simp [hc, Option.map_eq_none', hf]
      | none =>
          by_cases hc : c.isDigit <;> simp [hc, Option.map_eq_none', ih.mp hl]

theorem primMatch_none_iff (s : Str) : primMatch s = none ↔ fbMatch s = none := by
  unfold primMatch fbMatch
  by_cases ht : pcbTokenAt s
  · simp only [ht, if_true]
    cases hl : lastDigit? ((s.drop 3).takeWhile fun c => !(c == '\n')) with
    | none =>
        cases hf : firstDigit? ((s.drop 3).takeWhile fun c => !(c == '\n')) with
        | none => simp
        | some j =>
            have h0 := (digitNone_iff ((s.drop 3).takeWhile fun c => !(c == '\n'))).mp hl
            rw [h0] at hf
            cases hf
    | some i =>
        cases hf : firstDigit? ((s.drop 3).takeWhile fun c => !(c == '\n')) with
        | none =>
            have h0 := (digitNone_iff ((s.drop 3).takeWhile fun c => !(c == '\n'))).mpr hf
            rw [h0] at hl
            cases hl
        | some j => simp
  · simp [ht]

theorem findallGo_nil_iff (fuel : Nat) (s : Str) :
    findallGo primMatch fuel s = [] ↔ findallGo fbMatch fuel s = [] := by
  induction fuel generalizing s with
  | zero => simp [findallGo]
  | succ n ih =>
      cases s with
      | nil => simp [findallGo]
      | cons c cs =>
          unfold findallGo
          cases hp : primMatch (c :: cs) with
          | some pr =>
              cases hfm : fbMatch (c :: cs) with
              | none =>
                  rw [(primMatch_none_iff (c :: cs)).mpr hfm] at hp
                  cases hp
              | some pr2 =>
                  obtain ⟨cap, rest⟩ := pr
                  obtain ⟨cap2, rest2⟩ := pr2
                  simp
          | none =>
              cases hfm : fbMatch (c :: cs) with
              | some pr2 =>
                  rw [(primMatch_none_iff (c :: cs)).mp hp] at hfm
                  cases hfm
              | none => exact ih cs

/-- A state holding the single identifier "7", for concrete instantiations. -/
def st7 : SysState :=
  { totalPcbIds := [['7']], currentDate := 0, countFile := none, storeFile := none,
    diagFile := none, backupFile := none, countWrites := 0, storeWrites := 0 }

/-- A pass whose source file is missing. -/
def envMissing : Env :=
  { date := 0, source := none, copyOk := true, procOk := true, readOk := true, binOk := true }

/-- C1: evaluation of the code at the failing input. Processing a log that
contains "PCB0012" twice and "PCB0013" once, starting from the empty set, stores
the identifiers "2" and "3": the greedy primary pattern `PCB.*(\d+)` backtracks
to the last digit of the line, so group 1 captures only that final digit, not
the first full digit run after the token as the claim states. The claimed new
member "0012" is not in the resulting set (the count artifact does read "2"). -/
theorem c1_primary_captures_last_digit_only :
    (process_log_file (okEnv 0 ("PCB0012\nPCB0012\nPCB0013".toList))
        (initState 0)).totalPcbIds = [['2'], ['3']] ∧
    ['0', '0', '1', '2'] ∉
      (process_log_file (okEnv 0 ("PCB0012\nPCB0012\nPCB0013".toList))
        (initState 0)).totalPcbIds ∧
    (process_log_file (okEnv 0 ("PCB0012\nPCB0012\nPCB0013".toList))
        (initState 0)).countFile = some ['2', '\n'] := by
  decide

/-- C2: monotonic accumulation: across every sequence of `process_log_file`
passes (day boundaries included), an identifier once in the set stays in it,
and the cardinality of the set never decreases. -/
theorem c2_monotonic_accumulation (envs : List Env) (s : SysState) (x : Str) :
    (x ∈ s.totalPcbIds → x ∈ (processSeq envs s).totalPcbIds) ∧
    s.totalPcbIds.length ≤ (processSeq envs s).totalPcbIds.length := by
  induction envs generalizing s with
  | nil => exact ⟨id, le_refl _⟩
  | cons e es ih =>
      have hmem : x ∈ s.totalPcbIds → x ∈ (process_log_file e s).totalPcbIds := by
        intro h
        rw [process_total]
        exact mem_setUpdate_of_mem h
      have hlen : s.totalPcbIds.length ≤ (process_log_file e s).totalPcbIds.length := by
        rw [process_total]
        exact length_le_setUpdate _ _
      exact ⟨fun h => (ih (process_log_file e s)).1 (hmem h),
             le_trans hlen (ih (process_log_file e s)).2⟩

/-- C2 witness: the identifier "7" survives a pass with a missing source file. -/
theorem c2_monotonic_accumulation_witness :
    ['7'] ∈ (processSeq [envMissing] st7).totalPcbIds ∧
    st7.totalPcbIds.length ≤ (processSeq [envMissing] st7).totalPcbIds.length :=
  ⟨(c2_monotonic_accumulation [envMissing] st7 ['7']).1 (by decide),
   (c2_monotonic_accumulation [envMissing] st7 ['7']).2⟩

/-- C3: idempotence: a second pass with the same inputs leaves the identifier
set and the store artifact exactly as after the first pass, performs no store
write, and rewrites the count artifact once with the same value. -/
theorem c3_second_pass_noop (e : Env) (s : SysState) :
    (process_log_file e (process_log_file e s)).totalPcbIds
        = (process_log_file e s).totalPcbIds ∧
    (process_log_file e (process_log_file e s)).storeFile
        = (process_log_file e s).storeFile ∧
    (process_log_file e (process_log_file e s)).storeWrites
        = (process_log_file e s).storeWrites ∧
    (process_log_file e (process_log_file e s)).countFile
        = (process_log_file e s).countFile ∧
    (process_log_file e (process_log_file e s)).countWrites
        = (process_log_file e s).countWrites + 1 := by
  have hsub : ∀ x ∈ extractedOf e, x ∈ (process_log_file e s).totalPcbIds := by
    intro x hx
    rw [process_total]
    exact mem_setUpdate_of_mem_arg hx
  have htot : (process_log_file e (process_log_file e s)).totalPcbIds
      = (process_log_file e s).totalPcbIds := by
    rw [process_total]
    exact setUpdate_eq_of_subset hsub
  have hstore := process_store_of_subset e (process_log_file e s) hsub
  have hcw : (process_log_file e (process_log_file e s)).countWrites
      = (process_log_file e s).countWrites + 1 := by
    rw [process_countWrites, dayStep_eq_self (process_currentDate e s).symm]
  have hcf : (process_log_file e (process_log_file e s)).countFile
      = (process_log_file e s).countFile := by
    rw [process_countFile e (process_log_file e s), htot, process_countFile e s]
  exact ⟨htot, hstore.1, hstore.2, hcf, hcw⟩

/-- C4: every pass, on every path (day boundary, missing source, copy failure,
empty snapshot, decode failure, processing exception, success), ends by
rewriting the count artifact with the cardinality of the identifier set as it
stands at the end of the pass, so the artifact is never stale. -/
theorem c4_count_never_stale (e : Env) (s : SysState) :
    (process_log_file e s).countFile
      = some (countRepr (process_log_file e s).totalPcbIds.length) ∧
    s.countWrites < (process_log_file e s).countWrites := by
  refine ⟨process_countFile e s, ?_⟩
  rw [process_countWrites]
  exact Nat.lt_succ_of_le (dayStep_countWrites_le e s)

/-- C5: save_total_pcb_ids writes the store artifact with the identifiers of the
set, one per line, sorted by ascending numeric value (not lexical order); in
particular {"2","10","1"} is written as "1","2","10". -/
theorem c5_store_sorted_numerically :
    (∀ s : SysState, (save_total_pcb_ids s).storeFile = some (sortByInt s.totalPcbIds)) ∧
    (∀ l : List Str, (sortByInt l).Pairwise (fun a b => strToNat a ≤ strToNat b) ∧
      (∀ x, x ∈ sortByInt l ↔ x ∈ l)) ∧
    sortByInt [['2'], ['1', '0'], ['1']] = [['1'], ['2'], ['1', '0']] := by
  refine ⟨fun s => rfl, fun l => ⟨?_, fun x => List.mem_mergeSort⟩, ?_⟩
  · have htrans : ∀ a b c : Str, decide (strToNat a ≤ strToNat b) = true →
        decide (strToNat b ≤ strToNat c) = true →
        decide (strToNat a ≤ strToNat c) = true := by
      intro a b c hab hbc
      simp only [decide_eq_true_eq] at hab hbc ⊢
      exact le_trans hab hbc
    have htotal : ∀ a b : Str, (decide (strToNat a ≤ strToNat b) ||
        decide (strToNat b ≤ strToNat a)) = true := by
      intro a b
      simp only [Bool.or_eq_true, decide_eq_true_eq]
      exact Nat.le_total _ _
    have h := @List.sorted_mergeSort Str
        (fun a b => decide (strToNat a ≤ strToNat b)) htrans htotal l
    exact h.imp fun hab => of_decide_eq_true hab
  · have h2 : strToNat ['2'] = 2 := rfl
    have h10 : strToNat ['1', '0'] = 10 := rfl
    have h1 : strToNat ['1'] = 1 := rfl
    simp [sortByInt, List.mergeSort, List.merge, h2, h10, h1]

/-- C6: load_total_pcb_ids keeps exactly the lines of the store artifact that,
after stripping whitespace, are nonempty and purely decimal digits (duplicates
collapsing into a duplicate-free set), and an absent or unreadable artifact
yields the empty set without error. -/
theorem c6_load_keeps_digit_lines :
    (∀ content x, x ∈ load_total_pcb_ids (some content) ↔
        ((∃ line ∈ splitlines content, pyStrip line = x) ∧
          x ≠ [] ∧ x.all Char.isDigit = true)) ∧
    (∀ content, (load_total_pcb_ids (some content)).Nodup) ∧
    load_total_pcb_ids none = [] := by
  refine ⟨fun content x => ?_, fun content => nodup_setUpdate List.nodup_nil _, rfl⟩
  unfold load_total_pcb_ids
  rw [mem_setUpdate_iff]
  simp only [List.not_mem_nil, false_or, List.mem_filter, List.mem_map, pyIsDigit,
    Bool.and_eq_true, Bool.not_eq_true', List.isEmpty_eq_false, ne_eq]

/-- C7: evaluation of the two patterns at the failing input. On "pcb123" the
fallback pattern captures the full digit run "123", but the primary pattern on
the case-matched text "PCB123" captures only "3" (greedy gap), so the fallback
does not yield the token the primary would have yielded. -/
theorem c7_fallback_differs_from_primary :
    findallFallback ("pcb123".toList) = [['1', '2', '3']] ∧
    findallPrimary ("PCB123".toList) = [['3']] ∧
    (['1', '2', '3'] : Str) ≠ ['3'] := by
  decide

/-- C8: evaluation of the diagnostic line filter at the failing input. The
condition `"PCB" in line.lower() or "pcb" in line` is case-sensitive in effect:
its first disjunct tests the uppercase literal against a lowercased line and
never fires, so the line "PCB0012 OK" — which does contain "pcb"
case-insensitively — is excluded from the diagnostic artifact, while the
lowercase line "pcb0013 ok" is kept. -/
theorem c8_diag_filter_misses_uppercase :
    pcb_lines_of ("PCB0012 OK\npcb0013 ok".toList)
      = [['p', 'c', 'b', '0', '0', '1', '3', ' ', 'o', 'k']] ∧
    hasSub ['p', 'c', 'b'] (toLowerStr ("PCB0012 OK".toList)) = true ∧
    pcbLineTest ("PCB0012 OK".toList) = false := by
  decide

/-- C9: a pass is a total function (no exception reaches the caller), and when
the source file is missing the set is unchanged and the count artifact is still
rewritten with the current (unchanged) set size. -/
theorem c9_missing_source_safe (e : Env) (s : SysState) (h : e.source = none) :
    (process_log_file e s).totalPcbIds = s.totalPcbIds ∧
    (process_log_file e s).countFile = some (countRepr s.totalPcbIds.length) := by
  have htot : (process_log_file e s).totalPcbIds = s.totalPcbIds := by
    rw [process_total]
    unfold extractedOf
    rw [h]
    exact setUpdate_nil _
  exact ⟨htot, by rw [process_countFile, htot]⟩

/-- C9 witness: a concrete pass with a missing source file. -/
theorem c9_missing_source_safe_witness :
    (process_log_file envMissing st7).totalPcbIds = st7.totalPcbIds ∧
    (process_log_file envMissing st7).countFile
      = some (countRepr st7.totalPcbIds.length) :=
  c9_missing_source_safe envMissing st7 rfl

/-- C10: the case-insensitive primary pattern finds a match exactly when the
fallback pattern does, so the fallback branch (taken only on zero primary
matches) never contributes, and the extracted identifier list is always the
primary pattern's match list. -/
theorem c10_extract_eq_primary (content : Str) :
    ((findallPrimary content = []) ↔ (findallFallback content = [])) ∧
    extract content = findallPrimary content := by
  have hiff : findallPrimary content = [] ↔ findallFallback content = [] :=
    findallGo_nil_iff content.length content
  refine ⟨hiff, ?_⟩
  unfold extract
  by_cases hp : (findallPrimary content).isEmpty
  · rw [if_pos hp]
    have h0 : findallPrimary content = [] := List.isEmpty_iff.mp hp
    rw [hiff.mp h0, h0]
  · rw [if_neg hp]

end Stensil
